import Mathlib

/-
Shallow embedding of `src/toolkit/atacseq.py` (class `ATACSeqAnalysis`).

Genomic intervals are `(chrom, start, stop)` half-open records; a BED file /
pybedtools `BedTool` is a list of such intervals.  The pybedtools operations the
code relies on (`merge`, `cat`, `intersect(v=True)`, `intersect(c=True)`,
`filter`, `slop`) are given their standard BEDTools semantics.  Sample files
that may be absent on disk are `Option`s: `Option.none` models a missing file
(in the Python code, constructing a `BedTool` on a missing path raises
`ValueError`, and `os.path.exists` returns `False` for a missing BAM).
Fallible methods return `Except String _`, with the error string naming the
Python exception that the corresponding code path raises.
-/

structure BedInterval where
  chrom : String
  start : Nat
  stop : Nat
deriving DecidableEq, Repr

/-- Two half-open intervals overlap: same chromosome and nonempty intersection. -/
def BedInterval.overlaps (a b : BedInterval) : Bool :=
  a.chrom == b.chrom && a.start < b.stop && b.start < a.stop

abbrev BedSet := List BedInterval

/-- Lexicographic order on `(chrom, start, stop)`, the BED sort order. -/
def BedInterval.lexLe (a b : BedInterval) : Bool :=
  (a.chrom < b.chrom) ||
    (a.chrom == b.chrom &&
      (a.start < b.start || (a.start == b.start && a.stop ≤ b.stop)))

def insertSorted (i : BedInterval) : BedSet → BedSet
  | [] => [i]
  | j :: rest => if BedInterval.lexLe i j then i :: j :: rest else j :: insertSorted i rest

def sortBed (s : BedSet) : BedSet := s.foldr insertSorted []

/-- Coalesce step: `cur` is the interval currently being grown; join it with
each following interval that overlaps or abuts it. -/
def coalesceAux (cur : BedInterval) : BedSet → BedSet
  | [] => [cur]
  | j :: rest =>
    if cur.chrom == j.chrom && j.start ≤ cur.stop then
      coalesceAux { chrom := cur.chrom, start := cur.start, stop := max cur.stop j.stop } rest
    else
      cur :: coalesceAux j rest

/-- Coalesce a sorted interval list: join intervals that overlap or abut,
the second half of BEDTools `merge`. -/
def coalesce : BedSet → BedSet
  | [] => []
  | i :: rest => coalesceAux i rest

/-- BEDTools `merge`: sort, then join overlapping/abutting intervals. -/
def mergeBed (s : BedSet) : BedSet := coalesce (sortBed s)

/-- pybedtools `a.cat(b)`: concatenate and post-merge (`postmerge=True` default). -/
def catBed (a b : BedSet) : BedSet := mergeBed (a ++ b)

/-- BEDTools `slop -b ext`: symmetric resize (genome-boundary clamping at 0 via
truncated `Nat` subtraction; the upper chromosome bound is not modelled, no
claim depends on it). -/
def slopBed (ext : Nat) (s : BedSet) : BedSet :=
  s.map (fun i => { i with start := i.start - ext, stop := i.stop + ext })

def overlapsAny (b : BedSet) (i : BedInterval) : Bool :=
  b.any (fun j => BedInterval.overlaps i j)

/-- Number of intervals of `peaks` overlapping `region`:
`intersect(peaks, wa=True, c=True)`'s count column for one region. -/
def overlapCount (peaks : BedSet) (region : BedInterval) : Nat :=
  (peaks.filter (fun p => BedInterval.overlaps region p)).length

structure Sample where
  name : String
  peaks : Option BedSet
  summits : Option BedSet
  filtered : Option BedSet
deriving DecidableEq, Repr

/-- Region string `"chrom:start-stop"` (lines 142-147 of the source). -/
def fmtRegion (i : BedInterval) : String :=
  i.chrom ++ ":" ++ toString i.start ++ "-" ++ toString i.stop

def parseChrom (s : String) : String := (s.splitOn ":").headD ""

def parseStart (s : String) : Nat :=
  ((((s.splitOn ":").getD 1 "").splitOn "-").headD "").toNat?.getD 0

def parseStop (s : String) : Nat :=
  ((((s.splitOn ":").getD 1 "").splitOn "-").getD 1 "").toNat?.getD 0

/-- One row of a region-by-sample matrix: the pandas index entry (the region
string), the `chrom`/`start`/`end` columns parsed back out of it, and the
per-sample value columns. -/
structure CRow where
  key : String
  chrom : String
  start : Nat
  stop : Nat
  values : List ℚ
deriving DecidableEq, Repr

structure CMatrix where
  columns : List String
  rows : List CRow
deriving DecidableEq, Repr

/-- A row of the support table: one consensus region, its raw (unclamped)
per-sample overlap counts, and the derived `support` value. -/
structure SupportRow where
  region : BedInterval
  counts : List Nat
  support : ℚ
deriving DecidableEq, Repr

structure SupportTable where
  sampleNames : List String
  rows : List SupportRow
deriving DecidableEq, Repr

/-- A row of an aggregated per-region annotation table
(`gene_annotation` / `region_annotation` / `chrom_state_annotation`),
keyed by `(chrom, start, end)` with one aggregated value column. -/
structure AnnRow where
  chrom : String
  start : Nat
  stop : Nat
  value : String
deriving DecidableEq, Repr

/-- A row of the annotated matrix built by `annotate`: the coordinate key, the
sample value columns, the three left-joined annotation values, the joined
`support` value, and the derived per-region statistics (`mean`, `variance`,
`dispersion`, `amplitude`; the square-root based `std_deviation`/`qv2` columns
are irrational-valued and are not carried, no claim depends on them). -/
structure ARow where
  chrom : String
  start : Nat
  stop : Nat
  values : List ℚ
  gene : Option String
  region : Option String
  chromState : Option String
  supportVal : Option ℚ
  stats : List ℚ
deriving DecidableEq, Repr

structure AMatrix where
  columns : List String
  rows : List ARow
deriving DecidableEq, Repr

/-- The orchestrator state: the named, lazily populated attributes of an
`ATACSeqAnalysis` object.  `Option.none` models an attribute that was never
set (`hasattr` false; reading it raises `AttributeError`). -/
structure AnalysisState where
  name : String
  resultsDir : String
  samples : List Sample
  sites : Option BedSet := Option.none
  support : Option SupportTable := Option.none
  coverage : Option CMatrix := Option.none
  coverageRpm : Option CMatrix := Option.none
  coverageQnorm : Option CMatrix := Option.none
  nuc : Option (List (String × ℚ × Nat)) := Option.none
  coverageGc : Option CMatrix := Option.none
  geneAnn : Option (List AnnRow) := Option.none
  regionAnn : Option (List AnnRow) := Option.none
  chromStateAnn : Option (List AnnRow) := Option.none
  coverageAnnotated : Option AMatrix := Option.none
deriving DecidableEq, Repr

/-! ## get_consensus_sites (lines 35-69) -/

/-- Loading one sample's interval file inside the `try` of the loop
(lines 43-50): the summits variant substitutes the summits path and slops by
`extension`; a missing file raises `ValueError`, caught by the loop. -/
def loadSamplePeaks (regionType : String) (extension : Nat) (s : Sample) : Option BedSet :=
  if regionType == "summits" then (s.summits).map (slopBed extension)
  else s.peaks

/-- The indexed accumulation loop of `get_consensus_sites` (lines 40-57).
The Python local `sites` is only assigned on the `i == 0` arm or by
`sites.cat`, so when the first sample's file is missing and a later sample is
usable, `sites.cat(peaks)` reads an unbound local. -/
def consensusFold (regionType : String) (extension : Nat) :
    List (Nat × Sample) → Option BedSet → Except String (Option BedSet)
  | [], acc => Except.ok acc
  | (i, s) :: rest, acc =>
    match loadSamplePeaks regionType extension s with
    | Option.none => consensusFold regionType extension rest acc
    | some p =>
      let p := mergeBed p
      if i == 0 then consensusFold regionType extension rest (some p)
      else
        match acc with
        | Option.none =>
          Except.error "UnboundLocalError: local variable sites referenced before assignment"
        | some sites => consensusFold regionType extension rest (some (catBed sites p))

/-- `get_consensus_sites` (lines 35-69): fold the samples, merge once across
samples, subtract the blacklist (`intersect(v=True)`), drop `chrM` intervals,
persist, and store the result as `self.sites`.  The blacklist is the fixed
external interval set loaded at line 64. -/
def getConsensusSites (a : AnalysisState) (blacklist : BedSet) (samples : List Sample)
    (regionType : String) (extension : Nat) : Except String AnalysisState :=
  match consensusFold regionType extension samples.enum Option.none with
  | Except.error e => Except.error e
  | Except.ok Option.none =>
    Except.error "UnboundLocalError: local variable sites referenced before assignment"
  | Except.ok (some sites) =>
    let merged := mergeBed sites
    let noBlacklist := merged.filter (fun i => !(overlapsAny blacklist i))
    let final := noBlacklist.filter (fun i => i.chrom != "chrM")
    Except.ok { a with sites := some final }

/-- `set_consensus_sites` (lines 71-76). -/
def setConsensusSites (a : AnalysisState) (bedFile : BedSet) : AnalysisState :=
  { a with sites := some bedFile }

/-! ## calculate_peak_support (lines 78-114) and get_supported_peaks (lines 116-122) -/

/-- The interval set used for a sample by `calculate_peak_support`
(lines 85-88): the summits path (no slop here) or the peaks path.
A missing file is an uncaught `ValueError` in this method. -/
def supportPeaksOf (regionType : String) (s : Sample) : Option BedSet :=
  if regionType == "summits" then s.summits else s.peaks

/-- The value `supportPeaksOf` produces when it succeeds. -/
def loadedPeaks (regionType : String) (s : Sample) : BedSet :=
  (supportPeaksOf regionType s).getD []

/-- Load every sample's interval set, failing on the first missing file
(`calculate_peak_support` has no try/except around the loads). -/
def loadAllPeaks (regionType : String) : List Sample → Except String (List BedSet)
  | [] => Except.ok []
  | s :: rest =>
    match supportPeaksOf regionType s with
    | Option.none => Except.error ("ValueError: peaks file missing for " ++ s.name)
    | some p =>
      match loadAllPeaks regionType rest with
      | Except.error e => Except.error e
      | Except.ok ps => Except.ok (p :: ps)

/-- `i if i <= 1 else 1` from the lambda of line 110, on an integer cell:
clamp it into {0,1}. -/
def clampOne (i : Nat) : Nat := if i ≤ 1 then i else 1

/-- `sum([i if i <= 1 else 1 for i in x])` from line 110, applied to a list of
integer cells.  (Used below to state what the spec claims the support
numerator is — the clamped sum of the per-sample indicator columns.) -/
def clampedSum (counts : List Nat) : Nat := (counts.map clampOne).sum

/-- The clamped row slice that `support[range(len(samples))]` actually hands
to the lambda of line 110.  The columns were renamed to the string labels
`["chrom", "start", "end"] + sample names` at line 101, so the integer list
`range(len(samples))` selects POSITIONALLY in the pandas generation this code
runs on (the file still uses `.ix` at line 227 and `DataFrame.sort` at
line 348): positions `0..n-1` are `chrom`, `start`, `end`, then only the
FIRST `n-3` per-sample count columns.  The lambda clamps each cell with
`i if i <= 1 else 1`; under Python-2 ordering a string is never `<= 1`
(numbers sort before every other type), so the `chrom` cell always clamps to
1, while the integer cells clamp to `min(i, 1)`. -/
def supportSelection (region : BedInterval) (counts : List Nat) (n : Nat) : List Nat :=
  ([1, clampOne region.start, clampOne region.stop] ++ counts.map clampOne).take n

/-- The `support` value of one region (line 110): the summed clamped
positional selection, divided by `float(len(self.samples))` — the number of
samples held on the analysis object, not the number of samples passed in. -/
def supportValue (region : BedInterval) (counts : List Nat) (nPassed nTotal : Nat) : ℚ :=
  ((supportSelection region counts nPassed).sum : ℚ) / (nTotal : ℚ)

/-- `calculate_peak_support` (lines 78-114).  Successive
`intersect(peaks, wa=True, c=True)` calls append, for each consensus region,
one raw overlap-count column per sample; the derived `support` column is then
computed per region from the positional selection described at
`supportSelection` — NOT from the per-sample indicator columns alone. -/
def calculatePeakSupport (a : AnalysisState) (samples : List Sample)
    (regionType : String) : Except String AnalysisState :=
  match a.sites with
  | Option.none => Except.error "AttributeError: sites"
  | some sites =>
    match loadAllPeaks regionType samples with
    | Except.error e => Except.error e
    | Except.ok peaksList =>
      let rows := sites.map (fun region =>
        let counts := peaksList.map (fun p => overlapCount p region)
        ({ region := region, counts := counts,
           support := supportValue region counts samples.length a.samples.length }
          : SupportRow))
      let t : SupportTable := { sampleNames := samples.map Sample.name, rows := rows }
      Except.ok { a with support := some t }

/-- First index of a name in a column-name list (pandas label lookup). -/
def idxOfName (n : String) : List String → Option Nat
  | [] => Option.none
  | m :: rest => if m == n then some 0 else (idxOfName n rest).map (fun i => i + 1)

/-- Raw (unclamped) count of one sample column in one support row. -/
def lookupCount (t : SupportTable) (r : SupportRow) (n : String) : Nat :=
  ((idxOfName n t.sampleNames).map (fun i => r.counts.getD i 0)).getD 0

/-- `get_supported_peaks` (lines 116-122):
`self.support[[s.name for s in samples]].sum(1) != 0` — a boolean mask over
the support-table rows, true where the sum of the given samples' raw count
columns is nonzero.  It reads the raw indicator columns, not the aggregated
`support` column. -/
def getSupportedPeaks (t : SupportTable) (samples : List Sample) : List Bool :=
  t.rows.map (fun r => (samples.map (fun s => lookupCount t r s.name)).sum != 0)

/-! ## measure_coverage (lines 124-184) -/

/-- Modelled from the spec (§4.3): `count_reads_in_intervals` is imported from
`toolkit.general`, which is not among the sources; per the spec it counts, for
one sample's alignment file, the alignments overlapping each region string. -/
def countReadsInIntervals (reads : BedSet) (regionStr : String) : Nat :=
  (reads.filter (fun r =>
    BedInterval.overlaps ⟨parseChrom regionStr, parseStart regionStr, parseStop regionStr⟩ r)).length

/-- The region-by-sample count matrix assembled at lines 149-175: one column
per (non-missing) sample, one row per region string, with `chrom`/`start`/`end`
parsed back out of the region string. -/
def mkCoverage (samples : List Sample) (sitesStr : List String) : CMatrix :=
  { columns := samples.map Sample.name,
    rows := sitesStr.map (fun rs =>
      { key := rs, chrom := parseChrom rs, start := parseStart rs, stop := parseStop rs,
        values := samples.map (fun s =>
          ((countReadsInIntervals (s.filtered.getD []) rs : ℚ))) }) }

/-- The `sites` argument of `measure_coverage`: `None`, a `BedTool`, a pandas
`DataFrame` of 3-column regions, or a path to a BED file (lines 142-147). -/
inductive SitesArg where
  | nil
  | bedtool (s : BedSet)
  | dataframe (rows : List (String × Nat × Nat))
  | path (s : BedSet)
deriving DecidableEq, Repr

/-- Result of a `measure_coverage` call: the (possibly updated) analysis
state, the value returned to the caller, and the files written. -/
structure MCResult where
  state : AnalysisState
  returned : Option CMatrix
  writes : List (String × CMatrix)
deriving DecidableEq, Repr

/-- Lines 149-184 of `measure_coverage`, after the region strings are known.
`defaultFlag` models the Python local `default`: it is assigned (`True`) only
when the call passes neither explicit sites nor an explicit output file
(lines 135-138), yet line 178 reads it unconditionally — `Option.none` here is
the unbound local, so every explicit-mode call raises `UnboundLocalError`. -/
def measureCoverageBody (a : AnalysisState) (samples : List Sample)
    (sitesStr : List String) (defaultFlag : Option Bool) (outputFile : Option String) :
    Except String MCResult :=
  let coverage := mkCoverage samples sitesStr
  match defaultFlag with
  | Option.none =>
    Except.error "UnboundLocalError: local variable default referenced before assignment"
  | some _ =>
    let a1 := { a with coverage := some coverage }
    let w := [(a.resultsDir ++ "/" ++ a.name ++ "_peaks.raw_coverage.csv", coverage)]
    match outputFile with
    | some f => Except.ok { state := a1, returned := Option.none, writes := w ++ [(f, coverage)] }
    | Option.none => Except.ok { state := a1, returned := some coverage, writes := w }

/-- `measure_coverage` (lines 124-184).  Samples whose BAM file is missing are
dropped with a printed warning (lines 130-133); no fatality check remains even
when every sample is dropped.  When `sites` is `None`, the canonical
`self.sites` is used and — only if `output_file` is also `None` — the local
`default` is bound to `True`.  Note line 143: in the `BedTool` branch the
region strings are built from `self.sites`, not from the argument. -/
def measureCoverage (a : AnalysisState) (samples0 : List Sample) (sitesArg : SitesArg)
    (outputFile : Option String) : Except String MCResult :=
  let missing := samples0.filter (fun s => s.filtered.isNone)
  let samples := if missing.length > 0
    then samples0.filter (fun s => !(missing.contains s)) else samples0
  match sitesArg with
  | SitesArg.nil =>
    match a.sites with
    | Option.none => Except.error "AttributeError: sites"
    | some st =>
      measureCoverageBody a samples (st.map fmtRegion)
        (if outputFile.isNone then some true else Option.none) outputFile
  | SitesArg.bedtool _ =>
    match a.sites with
    | Option.none => Except.error "AttributeError: sites"
    | some st => measureCoverageBody a samples (st.map fmtRegion) Option.none outputFile
  | SitesArg.dataframe rows =>
    measureCoverageBody a samples
      (rows.map (fun r => r.1 ++ ":" ++ toString r.2.1 ++ "-" ++ toString r.2.2))
      Option.none outputFile
  | SitesArg.path st =>
    measureCoverageBody a samples (st.map fmtRegion) Option.none outputFile

/-! ## Normalization (lines 186-291) and its external backends -/

/-- A sample-column selection `df[[s.name for s in samples]]`, as a row-major
grid of the selected values.  (The selected names are present in the claims'
uses; an absent label would raise `KeyError` in pandas and is defaulted here.) -/
def selectColumns (m : CMatrix) (names : List String) : List (List ℚ) :=
  m.rows.map (fun r => names.map (fun n =>
    match idxOfName n m.columns with
    | some i => r.values.getD i 0
    | Option.none => 0))

/-- The external statistical backend of `normalize_coverage_quantiles`
(`preprocessCore`'s `normalize.quantiles`, called through rpy2): out of scope
per the spec (§6), so it is an arbitrary grid-to-grid function here. -/
abbrev QuantBackend := List (List ℚ) → List (List ℚ)

/-- The external `cqn` backend of `normalize_gc_content`
(matrix, per-region GC content, per-region lengths ↦ corrected matrix),
likewise out of scope per the spec (§6). -/
abbrev CqnBackend := List (List ℚ) → List ℚ → List Nat → List (List ℚ)

/-- `normalize_coverage_quantiles` (lines 186-210): select the sample columns
of `self.coverage`, run the external backend, rebuild a matrix with the same
row keys, join the `chrom`/`start`/`end` columns back, store it as
`self.coverage_qnorm` and persist it. -/
def normalizeCoverageQuantiles (qb : QuantBackend) (a : AnalysisState)
    (samples : List Sample) : Except String AnalysisState :=
  match a.coverage with
  | Option.none => Except.error "AttributeError: coverage"
  | some cov =>
    let toNorm := selectColumns cov (samples.map Sample.name)
    let normed := qb toNorm
    let qrows := List.zipWith (fun (r : CRow) (vals : List ℚ) => { r with values := vals })
      cov.rows normed
    let m : CMatrix := { columns := samples.map Sample.name, rows := qrows }
    Except.ok { a with coverageQnorm := some m }

/-- `get_peak_gccontent_length` (lines 212-229): compute GC fraction and length
per consensus region from the genome fasta (`gcOf` stands for the external
`nucleotide_content` computation), reindex to the coverage matrix's row keys
(`.ix[self.coverage.index]`, missing keys becoming NaN, modelled as 0), and
store the table as `self.nuc`. -/
def getPeakGccontentLength (gcOf : BedInterval → ℚ) (a : AnalysisState) :
    Except String AnalysisState :=
  match a.sites with
  | Option.none => Except.error "AttributeError: sites"
  | some sites =>
    match a.coverage with
    | Option.none => Except.error "AttributeError: coverage"
    | some cov =>
      let nucAll := sites.map (fun i => (fmtRegion i, gcOf i, i.stop - i.start))
      let nuc := cov.rows.map (fun r =>
        match nucAll.find? (fun t => t.1 == r.key) with
        | some t => t
        | Option.none => (r.key, 0, 0))
      Except.ok { a with nuc := some nuc }

/-- `normalize_gc_content` (lines 231-291).  Lines 278-282 are translated
exactly as written: BOTH lazy-dependency guards test `hasattr(self, "nuc")` —
the first one (which calls `normalize_coverage_quantiles`) never checks
`coverage_qnorm` — so a state with `nuc` computed but `coverage_qnorm` absent
falls through both guards and raises `AttributeError` at line 284. -/
def normalizeGcContent (qb : QuantBackend) (cb : CqnBackend) (gcOf : BedInterval → ℚ)
    (a : AnalysisState) (samples : List Sample) : Except String AnalysisState :=
  let step1 : Except String AnalysisState :=
    if a.nuc.isNone then normalizeCoverageQuantiles qb a samples else Except.ok a
  match step1 with
  | Except.error e => Except.error e
  | Except.ok a1 =>
    let step2 : Except String AnalysisState :=
      if a1.nuc.isNone then getPeakGccontentLength gcOf a1 else Except.ok a1
    match step2 with
    | Except.error e => Except.error e
    | Except.ok a2 =>
      match a2.coverageQnorm with
      | Option.none => Except.error "AttributeError: coverage_qnorm"
      | some q =>
        match a2.nuc with
        | Option.none => Except.error "AttributeError: nuc"
        | some nuc =>
          match a2.coverage with
          | Option.none => Except.error "AttributeError: coverage"
          | some cov =>
            let toNorm := selectColumns q (samples.map Sample.name)
            let corrected := cb toNorm (nuc.map (fun t => t.2.1)) (nuc.map (fun t => t.2.2))
            let grows := List.zipWith
              (fun (r : CRow) (vals : List ℚ) => { r with values := vals }) cov.rows corrected
            let m : CMatrix := { columns := samples.map Sample.name, rows := grows }
            Except.ok { a2 with coverageGc := some m }

/-- Column sums of a matrix's sample columns. -/
def colSums (m : CMatrix) : List ℚ :=
  m.rows.foldl (fun acc r => List.zipWith (· + ·) acc r.values)
    (List.replicate m.columns.length 0)

/-- Modelled from the spec (§4.4): the total-count (RPM) strategy
`normalize_coverage_rpm` is absent from the sources (only the test
`src/test/test_atacseq_analysis.py` calls it); per the spec each sample column
is divided by its column sum and scaled by 1e6. -/
def rpmMatrix (m : CMatrix) : CMatrix :=
  let sums := colSums m
  { m with rows := m.rows.map (fun r =>
      { r with values := List.zipWith (fun v s => v * 1000000 / s) r.values sums }) }

/-- Modelled from the spec (§4.4): the `normalize_coverage_rpm` entry point —
compute the RPM matrix from the canonical coverage matrix, cache it under its
named attribute, and return the same object. -/
def normalizeCoverageRpmEntry (a : AnalysisState) :
    Except String (AnalysisState × CMatrix) :=
  match a.coverage with
  | Option.none => Except.error "AttributeError: coverage"
  | some c =>
    let m := rpmMatrix c
    Except.ok ({ a with coverageRpm := some m }, m)

/-- Modelled from the spec (§4.4): the dispatch entry point `normalize(method)`
is absent from the sources (only the test calls it); it routes
`"total" | "quantile" | "gc_content"` to the corresponding strategy and
returns the object the strategy caches, as an exact pass-through. -/
def normalizeDispatch (qb : QuantBackend) (cb : CqnBackend) (gcOf : BedInterval → ℚ)
    (a : AnalysisState) (samples : List Sample) (method : String) :
    Except String (AnalysisState × CMatrix) :=
  if method == "total" then
    normalizeCoverageRpmEntry a
  else if method == "quantile" then
    match normalizeCoverageQuantiles qb a samples with
    | Except.error e => Except.error e
    | Except.ok a1 =>
      match a1.coverageQnorm with
      | some m => Except.ok (a1, m)
      | Option.none => Except.error "AttributeError: coverage_qnorm"
  else if method == "gc_content" then
    match normalizeGcContent qb cb gcOf a samples with
    | Except.error e => Except.error e
    | Except.ok a1 =>
      match a1.coverageGc with
      | some m => Except.ok (a1, m)
      | Option.none => Except.error "AttributeError: coverage_gc_corrected"
  else
    Except.error ("ValueError: unknown method " ++ method)

/-! ## annotate (lines 389-433) -/

def sameKey3 (c : String) (s e : Nat) (r : AnnRow) : Bool :=
  r.chrom == c && r.start == s && r.stop == e

/-- One `pd.merge(..., on=[chrom,start,end], how="left")` against an
aggregated annotation table: every left row is kept; a row with no match gets
a null value, a row with several matches is duplicated once per match. -/
def leftJoinAnnBy (setter : ARow → Option String → ARow) (t : List AnnRow)
    (rows : List ARow) : List ARow :=
  rows.flatMap (fun r =>
    match t.filter (fun ar => sameKey3 r.chrom r.start r.stop ar) with
    | [] => [setter r Option.none]
    | ms => ms.map (fun ar => setter r (some ar.value)))

/-- The left join against `self.support[['chrom','start','end','support']]`. -/
def leftJoinSupportTab (t : SupportTable) (rows : List ARow) : List ARow :=
  rows.flatMap (fun r =>
    match t.rows.filter (fun sr =>
      sr.region.chrom == r.chrom && sr.region.start == r.start && sr.region.stop == r.stop) with
    | [] => [{ r with supportVal := Option.none }]
    | ms => ms.map (fun sr => { r with supportVal := some sr.support }))

def qMean (l : List ℚ) : ℚ := l.sum / (l.length : ℚ)

/-- pandas `var` (ddof=1). -/
def qVar (l : List ℚ) : ℚ :=
  (l.map (fun x => (x - qMean l) ^ 2)).sum / ((l.length : ℚ) - 1)

/-- The derived per-region statistics of lines 411-426 over the sample columns
(`mean`, `variance`, `dispersion = variance/mean`, `amplitude = max - min`). -/
def addStats (names : List String) (cols : List String) (r : ARow) : ARow :=
  let sel := names.map (fun n =>
    match idxOfName n cols with
    | some i => r.values.getD i 0
    | Option.none => 0)
  let m := qMean sel
  let v := qVar sel
  { r with stats := [m, v, v / m, sel.foldl max (sel.headD 0) - sel.foldl min (sel.headD 0)] }

/-- The quant matrix `annotate` works on: the argument if given, otherwise
`self.coverage_gc_corrected` (line 391-392). -/
def pickQuantMatrix (a : AnalysisState) (quantArg : Option CMatrix) : Except String CMatrix :=
  match quantArg with
  | some q => Except.ok q
  | Option.none =>
    match a.coverageGc with
    | some q => Except.ok q
    | Option.none => Except.error "AttributeError: coverage_gc_corrected"

/-- The quant-matrix rows recast as annotated-matrix rows before any join. -/
def initRows (qm : CMatrix) : List ARow :=
  qm.rows.map (fun r =>
    { chrom := r.chrom, start := r.start, stop := r.stop, values := r.values,
      gene := Option.none, region := Option.none, chromState := Option.none,
      supportVal := Option.none, stats := [] })

/-- The four left joins of `annotate` in their fixed order
(gene, genomic region, chromatin state, support; lines 393-409), followed by
the derived statistics (lines 411-426). -/
def joinAll (ga ra ca : List AnnRow) (sup : SupportTable) (names cols : List String)
    (rows0 : List ARow) : List ARow :=
  (leftJoinSupportTab sup
    (leftJoinAnnBy (fun r v => { r with chromState := v }) ca
      (leftJoinAnnBy (fun r v => { r with region := v }) ra
        (leftJoinAnnBy (fun r v => { r with gene := v }) ga rows0)))).map (addStats names cols)

/-- The `assert self.coverage.shape[0] == self.coverage_annotated.shape[0]` of
line 429: store the annotated matrix only when its row count equals the
coverage matrix's; otherwise the `AssertionError` propagates. -/
def assertJoined (a : AnalysisState) (cov : CMatrix) (cols : List String)
    (joined : List ARow) : Except String AnalysisState :=
  if cov.rows.length == joined.length then
    Except.ok { a with coverageAnnotated := some { columns := cols, rows := joined } }
  else
    Except.error "AssertionError"

/-- `annotate` (lines 389-433): left-join the gene, genomic-region and
chromatin-state tables and the `support` column, in that order, onto the quant
matrix (default `self.coverage_gc_corrected`), add the derived statistics, and
assert the row count against the coverage matrix before saving.  On assert
failure the `AssertionError` propagates (in Python the half-built attribute is
left behind, which no later stage may rely on; the model reports just the
raised error). -/
def annotate (a : AnalysisState) (samples : List Sample) (quantArg : Option CMatrix) :
    Except String AnalysisState :=
  match pickQuantMatrix a quantArg with
  | Except.error e => Except.error e
  | Except.ok qm =>
    match a.geneAnn with
    | Option.none => Except.error "AttributeError: gene_annot table"
    | some ga =>
      match a.regionAnn with
      | Option.none => Except.error "AttributeError: region_annot table"
      | some ra =>
        match a.chromStateAnn with
        | Option.none => Except.error "AttributeError: chrom_state_annot table"
        | some ca =>
          match a.support with
          | Option.none => Except.error "AttributeError: support"
          | some sup =>
            match a.coverage with
            | Option.none => Except.error "AttributeError: coverage"
            | some cov =>
              assertJoined a cov qm.columns
                (joinAll ga ra ca sup (samples.map Sample.name) qm.columns (initRows qm))

/-! ## Theorems -/

/-- C2: every consensus set produced by `get_consensus_sites` contains no
interval overlapping the blacklist and no interval on the excluded contig
`chrM`. -/
theorem consensus_sites_blacklist_chrM_free
    (a : AnalysisState) (blacklist : BedSet) (samples : List Sample)
    (regionType : String) (extension : Nat) (a' : AnalysisState)
    (hrun : getConsensusSites a blacklist samples regionType extension = Except.ok a')
    (st : BedSet) (hst : a'.sites = some st) :
    ∀ i ∈ st, (∀ b ∈ blacklist, BedInterval.overlaps i b = false) ∧ i.chrom ≠ "chrM" := by
  unfold getConsensusSites at hrun
  cases hfold : consensusFold regionType extension samples.enum Option.none with
  | error e => rw [hfold] at hrun; exact absurd hrun (by simp)
  | ok acc =>
    rw [hfold] at hrun
    cases acc with
    | none => exact absurd hrun (by simp)
    | some sites =>
      simp only [Except.ok.injEq] at hrun
      subst hrun
      simp only [Option.some.injEq] at hst
      subst hst
      intro i hi
      rw [List.mem_filter] at hi
      obtain ⟨hi1, hchr⟩ := hi
      rw [List.mem_filter] at hi1
      obtain ⟨_, hbl⟩ := hi1
      have hny : overlapsAny blacklist i = false := by
        cases hcase : overlapsAny blacklist i
        · rfl
        · rw [hcase] at hbl; exact absurd hbl (by simp)
      constructor
      · intro b hb
        cases hcase : BedInterval.overlaps i b
        · rfl
        · exfalso
          have : overlapsAny blacklist i = true := by
            unfold overlapsAny
            rw [List.any_eq_true]
            exact ⟨b, hb, hcase⟩
          rw [this] at hny
          exact absurd hny (by simp)
      · simpa using hchr

def wsSample : Sample :=
  { name := "w1", peaks := some [⟨"chr1", 100, 200⟩],
    summits := Option.none, filtered := Option.none }

def wsBlacklist : BedSet := [⟨"chr1", 300, 400⟩]

def wsState : AnalysisState := { name := "an", resultsDir := "res", samples := [wsSample] }

/-- Witness for C2: in a concrete consensus run the single output interval
overlaps no blacklist interval and is not on `chrM`. -/
theorem consensus_sites_blacklist_chrM_free_witness :
    BedInterval.overlaps ⟨"chr1", 100, 200⟩ ⟨"chr1", 300, 400⟩ = false
    ∧ BedInterval.chrom ⟨"chr1", 100, 200⟩ ≠ "chrM" := by
  have hrun : getConsensusSites wsState wsBlacklist [wsSample] "peaks" 250
      = Except.ok { wsState with sites := some [⟨"chr1", 100, 200⟩] } := by rfl
  have h := consensus_sites_blacklist_chrM_free wsState wsBlacklist [wsSample] "peaks" 250
    _ hrun _ rfl ⟨"chr1", 100, 200⟩ (by simp)
  exact ⟨h.1 ⟨"chr1", 300, 400⟩ (by simp [wsBlacklist]), h.2⟩

def c5SampleMissing : Sample :=
  { name := "m", peaks := Option.none, summits := Option.none, filtered := Option.none }

def c5SampleOk : Sample :=
  { name := "k", peaks := some [⟨"chr2", 10, 50⟩],
    summits := Option.none, filtered := Option.none }

def c5State : AnalysisState :=
  { name := "an", resultsDir := "res", samples := [c5SampleMissing, c5SampleOk] }

/-- C5: the claimed position-independence of missing-peaks-file skipping fails.
When the sample with the absent peaks file is FIRST, `get_consensus_sites`
raises `UnboundLocalError` (the accumulator `sites` is only seeded on the
`i == 0` iteration), even though a later usable sample exists; the same two
samples in the opposite order build the consensus fine. -/
theorem consensus_first_sample_missing_is_fatal :
    (getConsensusSites c5State [] [c5SampleMissing, c5SampleOk] "peaks" 250
      = Except.error "UnboundLocalError: local variable sites referenced before assignment")
    ∧ (getConsensusSites c5State [] [c5SampleOk, c5SampleMissing] "peaks" 250
      = Except.ok { c5State with sites := some [⟨"chr2", 10, 50⟩] }) :=
  ⟨rfl, rfl⟩

def c1Sample : Sample :=
  { name := "b", peaks := Option.none, summits := Option.none,
    filtered := some [⟨"chr1", 120, 130⟩] }

def c1State : AnalysisState :=
  { name := "an", resultsDir := "res", samples := [c1Sample],
    sites := some [⟨"chr1", 100, 200⟩] }

/-- C1: the two invocation modes of `measure_coverage`.  The default mode
(no explicit sites, no output target) does store the result as the canonical
coverage attribute and persist it — but every invocation with explicit sites
(as a DataFrame or a BedTool) or with an explicit output target raises
`UnboundLocalError` instead of returning the matrix: the local `default` is
assigned only on the default path (line 138) yet read unconditionally
(line 178). -/
theorem measure_coverage_two_modes :
    (measureCoverage c1State [c1Sample] (SitesArg.dataframe [("chr1", 100, 200)]) Option.none
      = Except.error "UnboundLocalError: local variable default referenced before assignment")
    ∧ (measureCoverage c1State [c1Sample] SitesArg.nil (some "other.csv")
      = Except.error "UnboundLocalError: local variable default referenced before assignment")
    ∧ (measureCoverage c1State [c1Sample] (SitesArg.bedtool [⟨"chr1", 100, 200⟩]) Option.none
      = Except.error "UnboundLocalError: local variable default referenced before assignment")
    ∧ (∃ r, measureCoverage c1State [c1Sample] SitesArg.nil Option.none = Except.ok r ∧
        r.state.coverage = some (mkCoverage [c1Sample] ["chr1:100-200"]) ∧
        r.returned = r.state.coverage ∧
        r.writes = [("res/an_peaks.raw_coverage.csv", mkCoverage [c1Sample] ["chr1:100-200"])]) :=
  ⟨rfl, rfl, rfl, ⟨_, rfl, rfl, rfl, rfl⟩⟩

def c8Sample : Sample :=
  { name := "x", peaks := Option.none, summits := Option.none, filtered := Option.none }

def c8State : AnalysisState :=
  { name := "an", resultsDir := "res", samples := [c8Sample],
    sites := some [⟨"chr1", 100, 200⟩] }

/-- C8: when EVERY sample's alignment file is missing, the default-mode
`measure_coverage` does not fail — it silently drops all samples and stores
and returns a coverage matrix with zero sample columns (the repository's own
test `test_measure_coverage` expects an `IOError` in this situation). -/
theorem measure_coverage_all_bams_missing_succeeds :
    ∃ r, measureCoverage c8State [c8Sample] SitesArg.nil Option.none = Except.ok r ∧
      r.state.coverage = some (mkCoverage [] ["chr1:100-200"]) ∧
      Option.map CMatrix.columns r.state.coverage = some [] ∧
      r.returned.isSome = true :=
  ⟨_, rfl, rfl, rfl, rfl⟩

def c6Cov : CMatrix :=
  { columns := ["b"],
    rows := [{ key := "chr1:100-200", chrom := "chr1", start := 100, stop := 200,
               values := [7] }] }

/-- An analysis state whose covariate table `nuc` is computed but whose
quantile-normalized matrix is not. -/
def c6State : AnalysisState :=
  { name := "an", resultsDir := "res", samples := [c1Sample],
    sites := some [⟨"chr1", 100, 200⟩],
    coverage := some c6Cov,
    nuc := some [("chr1:100-200", (1 : ℚ) / 2, 100)] }

/-- An analysis state with neither the quantile-normalized matrix nor the
covariate table computed (coverage and sites present). -/
def c6bState : AnalysisState :=
  { name := "an", resultsDir := "res", samples := [c1Sample],
    sites := some [⟨"chr1", 100, 200⟩],
    coverage := some c6Cov }

/-- C6: `normalize_gc_content` does NOT lazily compute each missing
dependency.  Both guards test `hasattr(self, "nuc")` (lines 278-281), so a
state with the covariate table already computed but the quantile-normalized
matrix missing falls through both guards and raises `AttributeError` — while
a state with both missing does get both computed and succeeds, whatever the
external backends are. -/
theorem normalize_gc_content_dependency_guard :
    ∀ (qb : QuantBackend) (cb : CqnBackend) (gcOf : BedInterval → ℚ) (samples : List Sample),
      (normalizeGcContent qb cb gcOf c6State samples
        = Except.error "AttributeError: coverage_qnorm")
      ∧ (normalizeGcContent qb cb gcOf c6bState samples).isOk = true := by
  intro qb cb gcOf samples
  exact ⟨rfl, rfl⟩

/-- C7: the `normalize` dispatcher invoked with `method="total"` is an exact
pass-through of the total-count (RPM) strategy: for every analysis state and
every choice of the external backends, the dispatcher's result — cached state
and returned matrix alike — is identical to calling the strategy directly. -/
theorem normalize_total_dispatch_passthrough :
    ∀ (qb : QuantBackend) (cb : CqnBackend) (gcOf : BedInterval → ℚ)
      (a : AnalysisState) (samples : List Sample),
      normalizeDispatch qb cb gcOf a samples "total" = normalizeCoverageRpmEntry a := by
  intro qb cb gcOf a samples
  rfl

/-! ## Helper lemmas about the support computation -/

lemma clampOne_le_one (i : Nat) : clampOne i ≤ 1 := by
  unfold clampOne; split <;> omega

lemma sum_le_length_of_all_le_one (l : List Nat) (h : ∀ x ∈ l, x ≤ 1) :
    l.sum ≤ l.length := by
  induction l with
  | nil => simp
  | cons a as ih =>
    rw [List.sum_cons, List.length_cons]
    have ha := h a (by simp)
    have := ih (fun x hx => h x (by simp [hx]))
    omega

lemma sum_eq_length_of_all_one (l : List Nat) (h : ∀ x ∈ l, x = 1) :
    l.sum = l.length := by
  induction l with
  | nil => simp
  | cons a as ih =>
    rw [List.sum_cons, List.length_cons, h a (by simp),
      ih (fun x hx => h x (by simp [hx]))]
    omega

lemma supportSelection_sum_le (region : BedInterval) (counts : List Nat) (n : Nat) :
    (supportSelection region counts n).sum ≤ n := by
  unfold supportSelection
  have hall : ∀ x ∈ ([1, clampOne region.start, clampOne region.stop]
      ++ counts.map clampOne).take n, x ≤ 1 := by
    intro x hx
    have hx' := List.mem_of_mem_take hx
    rcases List.mem_append.mp hx' with h | h
    · simp only [List.mem_cons, List.not_mem_nil, or_false] at h
      rcases h with rfl | rfl | rfl
      · omega
      · exact clampOne_le_one _
      · exact clampOne_le_one _
    · obtain ⟨c, hc, rfl⟩ := List.mem_map.mp h
      exact clampOne_le_one c
  calc (([1, clampOne region.start, clampOne region.stop]
        ++ counts.map clampOne).take n).sum
      ≤ (([1, clampOne region.start, clampOne region.stop]
        ++ counts.map clampOne).take n).length := sum_le_length_of_all_le_one _ hall
    _ ≤ n := by rw [List.length_take]; exact Nat.min_le_left _ _

lemma supportSelection_sum_eq (region : BedInterval) (counts : List Nat) (n : Nat)
    (hstart : 1 ≤ region.start) (hwf : region.start < region.stop)
    (hn : n ≤ counts.length + 3)
    (hcounts : ∀ c ∈ counts.take (n - 3), 1 ≤ c) :
    (supportSelection region counts n).sum = n := by
  have h1 : clampOne region.start = 1 := by unfold clampOne; split <;> omega
  have h2 : clampOne region.stop = 1 := by unfold clampOne; split <;> omega
  unfold supportSelection
  rw [h1, h2]
  have hall : ∀ x ∈ (([1, 1, 1] ++ counts.map clampOne).take n), x = 1 := by
    intro x hx
    rw [List.take_append_eq_append_take] at hx
    rcases List.mem_append.mp hx with h | h
    · have hx' := List.mem_of_mem_take h
      simp only [List.mem_cons, List.not_mem_nil, or_false] at hx'
      rcases hx' with rfl | rfl | rfl <;> rfl
    · rw [← List.map_take] at h
      obtain ⟨c, hc, rfl⟩ := List.mem_map.mp h
      have hc1 : 1 ≤ c := hcounts c (by simpa using hc)
      unfold clampOne; split <;> omega
  rw [sum_eq_length_of_all_one _ hall, List.length_take]
  simp only [List.length_append, List.length_cons, List.length_map, List.length_nil]
  omega

lemma supportValue_nonneg (region : BedInterval) (counts : List Nat) (np nt : Nat) :
    0 ≤ supportValue region counts np nt := by
  unfold supportValue
  exact div_nonneg (Nat.cast_nonneg _) (Nat.cast_nonneg _)

lemma supportValue_le_one (region : BedInterval) (counts : List Nat) (np nt : Nat)
    (h : np ≤ nt) : supportValue region counts np nt ≤ 1 := by
  unfold supportValue
  apply div_le_one_of_le₀
  · exact_mod_cast le_trans (supportSelection_sum_le region counts np) h
  · exact Nat.cast_nonneg nt

lemma supportValue_le_ratio (region : BedInterval) (counts : List Nat) (np nt : Nat) :
    supportValue region counts np nt ≤ (np : ℚ) / (nt : ℚ) := by
  unfold supportValue
  gcongr
  exact_mod_cast supportSelection_sum_le region counts np

lemma supportValue_lt_one (region : BedInterval) (counts : List Nat) (np nt : Nat)
    (h : np < nt) : supportValue region counts np nt < 1 := by
  unfold supportValue
  have hpos : (0 : ℚ) < (nt : ℚ) := by
    exact_mod_cast Nat.lt_of_le_of_lt (Nat.zero_le _) h
  rw [div_lt_one hpos]
  exact_mod_cast Nat.lt_of_le_of_lt (supportSelection_sum_le region counts np) h

lemma supportValue_eq_one (region : BedInterval) (counts : List Nat) (np nt : Nat)
    (hstart : 1 ≤ region.start) (hwf : region.start < region.stop)
    (hn : np ≤ counts.length + 3)
    (hcounts : ∀ c ∈ counts.take (np - 3), 1 ≤ c)
    (heq : np = nt) (hpos : 0 < nt) :
    supportValue region counts np nt = 1 := by
  unfold supportValue
  rw [supportSelection_sum_eq region counts np hstart hwf hn hcounts, heq]
  exact div_self (by exact_mod_cast Nat.pos_iff_ne_zero.mp hpos)

lemma loadAllPeaks_length (rt : String) (ss : List Sample) (ps : List BedSet)
    (h : loadAllPeaks rt ss = Except.ok ps) : ps.length = ss.length := by
  induction ss generalizing ps with
  | nil =>
    unfold loadAllPeaks at h
    simp only [Except.ok.injEq] at h
    subst h; rfl
  | cons s rest ih =>
    unfold loadAllPeaks at h
    cases hsp : supportPeaksOf rt s with
    | none => rw [hsp] at h; exact absurd h (by simp)
    | some p =>
      rw [hsp] at h
      cases hrec : loadAllPeaks rt rest with
      | error e => rw [hrec] at h; exact absurd h (by simp)
      | ok ps' =>
        rw [hrec] at h
        simp only [Except.ok.injEq] at h
        subst h
        simp [ih ps' hrec]

lemma loadAllPeaks_eq_map (rt : String) (ss : List Sample) (ps : List BedSet)
    (h : loadAllPeaks rt ss = Except.ok ps) : ps = ss.map (loadedPeaks rt) := by
  induction ss generalizing ps with
  | nil =>
    unfold loadAllPeaks at h
    simp only [Except.ok.injEq] at h
    subst h; rfl
  | cons s rest ih =>
    unfold loadAllPeaks at h
    cases hsp : supportPeaksOf rt s with
    | none => rw [hsp] at h; exact absurd h (by simp)
    | some p =>
      rw [hsp] at h
      cases hrec : loadAllPeaks rt rest with
      | error e => rw [hrec] at h; exact absurd h (by simp)
      | ok ps' =>
        rw [hrec] at h
        simp only [Except.ok.injEq] at h
        subst h
        simp [List.map_cons, ih ps' hrec, loadedPeaks, hsp]

/-- Inversion of a successful `calculatePeakSupport` run. -/
lemma calculatePeakSupport_inv (a : AnalysisState) (samples : List Sample) (rt : String)
    (a' : AnalysisState) (t : SupportTable)
    (hrun : calculatePeakSupport a samples rt = Except.ok a')
    (ht : a'.support = some t) :
    ∃ sites peaksList, a.sites = some sites ∧ loadAllPeaks rt samples = Except.ok peaksList ∧
      t.sampleNames = samples.map Sample.name ∧
      t.rows = sites.map (fun region =>
        ({ region := region,
           counts := peaksList.map (fun p => overlapCount p region),
           support := supportValue region (peaksList.map (fun p => overlapCount p region))
             samples.length a.samples.length } : SupportRow)) := by
  unfold calculatePeakSupport at hrun
  cases hs : a.sites with
  | none => rw [hs] at hrun; exact absurd hrun (by simp)
  | some sites =>
    rw [hs] at hrun
    cases hl : loadAllPeaks rt samples with
    | error e => rw [hl] at hrun; exact absurd hrun (by simp)
    | ok peaksList =>
      rw [hl] at hrun
      simp only [Except.ok.injEq] at hrun
      subst hrun
      simp only [Option.some.injEq] at ht
      subst ht
      exact ⟨sites, peaksList, rfl, rfl, rfl, rfl⟩

/-- C3 (amended): for every support-table row produced by
`calculate_peak_support`, `0 ≤ support ≤ 1` holds whenever at most as many
samples are passed as the analysis holds.  But because line 110's
`support[range(len(samples))]` selects positionally, support 1 is NOT
characterised by per-sample overlap: with the passed samples exactly the
analysis's samples (at least one), support is exactly 1 when every selected
cell clamps to 1 — the region starts at coordinate 1 or later (then its
`start` and `end` cells clamp to 1) and the FIRST `len(samples) - 3`
indicator columns are all at least 1.  A region overlapped by every sample
can still have support below 1: see the counterexample, a region starting at
coordinate 0. -/
theorem support_bounds (a : AnalysisState) (samples : List Sample) (rt : String)
    (a' : AnalysisState) (t : SupportTable) (row : SupportRow)
    (hrun : calculatePeakSupport a samples rt = Except.ok a')
    (ht : a'.support = some t) (hrow : row ∈ t.rows) :
    (samples.length ≤ a.samples.length → 0 ≤ row.support ∧ row.support ≤ 1)
    ∧ (samples.length = a.samples.length → 0 < samples.length →
        1 ≤ row.region.start → row.region.start < row.region.stop →
        (∀ c ∈ row.counts.take (samples.length - 3), 1 ≤ c) →
        row.support = 1) := by
  obtain ⟨sites, ps, hs, hl, hnames, hrows⟩ :=
    calculatePeakSupport_inv a samples rt a' t hrun ht
  rw [hrows] at hrow
  simp only [List.mem_map] at hrow
  obtain ⟨region, hreg, hrow⟩ := hrow
  subst hrow
  have hlen : (ps.map (fun p => overlapCount p region)).length = samples.length := by
    rw [List.length_map, loadAllPeaks_length rt samples ps hl]
  constructor
  · intro hle
    exact ⟨supportValue_nonneg _ _ _ _, supportValue_le_one _ _ _ _ hle⟩
  · intro heq hpos hstart hwf hcounts
    exact supportValue_eq_one _ _ _ _ hstart hwf (by rw [hlen]; omega) hcounts heq
      (by omega)

def c3wA : Sample :=
  { name := "wa", peaks := some [⟨"chr1", 100, 150⟩],
    summits := Option.none, filtered := Option.none }

def c3wB : Sample :=
  { name := "wb", peaks := some [⟨"chr1", 150, 200⟩],
    summits := Option.none, filtered := Option.none }

def c3wState : AnalysisState :=
  { name := "an", resultsDir := "res", samples := [c3wA, c3wB],
    sites := some [⟨"chr1", 100, 200⟩] }

def c3wRow : SupportRow :=
  { region := ⟨"chr1", 100, 200⟩, counts := [1, 1],
    support := supportValue ⟨"chr1", 100, 200⟩ [1, 1] 2 2 }

def c3wTable : SupportTable := { sampleNames := ["wa", "wb"], rows := [c3wRow] }

/-- Witness for C3: a concrete run over two samples whose interval sets both
overlap the single consensus region (which starts at coordinate 100); its
support is within bounds and is exactly 1. -/
theorem support_bounds_witness :
    ((0 : ℚ) ≤ c3wRow.support ∧ c3wRow.support ≤ 1) ∧ c3wRow.support = 1 := by
  have hrun : calculatePeakSupport c3wState [c3wA, c3wB] "peaks"
      = Except.ok { c3wState with support := some c3wTable } := by rfl
  have h := support_bounds c3wState [c3wA, c3wB] "peaks" _ c3wTable c3wRow hrun rfl
    (by simp [c3wTable])
  exact ⟨h.1 (by decide), h.2 (by decide) (by decide) (by decide) (by decide) (by decide)⟩

def c3xA : Sample :=
  { name := "xa", peaks := some [⟨"chr1", 0, 50⟩],
    summits := Option.none, filtered := Option.none }

def c3xB : Sample :=
  { name := "xb", peaks := some [⟨"chr1", 100, 150⟩],
    summits := Option.none, filtered := Option.none }

def c3xState : AnalysisState :=
  { name := "an", resultsDir := "res", samples := [c3xA, c3xB],
    sites := some [⟨"chr1", 0, 200⟩] }

/-- Counterexample to C3 as stated: a concrete `calculate_peak_support` run
(passed samples = the analysis's two samples) over a region starting at
coordinate 0 that BOTH samples' interval sets overlap — so the summed
per-sample indicator is 2 ≥ 2 = the sample count — yet the positional
selection takes the `chrom` and `start` cells (clamping to 1 and 0), so the
region's support is 1/2, not 1. -/
theorem support_sum_ge_count_not_one :
    ((calculatePeakSupport c3xState [c3xA, c3xB] "peaks").toOption.bind AnalysisState.support
      = some { sampleNames := ["xa", "xb"],
               rows := [{ region := ⟨"chr1", 0, 200⟩, counts := [1, 1],
                          support := supportValue ⟨"chr1", 0, 200⟩ [1, 1] 2 2 }] })
    ∧ [1, 1].sum ≥ [c3xA, c3xB].length
    ∧ (∀ c ∈ [1, 1], 1 ≤ c)
    ∧ supportValue ⟨"chr1", 0, 200⟩ [1, 1] 2 2 ≠ 1 :=
  ⟨rfl, by decide, by decide, by norm_num [supportValue, supportSelection, clampOne]⟩

/-- C10 (amended): the `support` denominator is `len(self.samples)` — the
sample count stored on the analysis object, not the number of samples passed
in — but the numerator is NOT the clamped indicator sum over the passed
samples: it is the clamped positional selection of `supportSelection` (see
the counterexample, where a region no passed sample overlaps still gets
support 1/2).  What survives of the claim's consequence: whenever fewer
samples are passed than the analysis holds, EVERY region's support —
overlapped by all passed samples or not — is at most passed/total, strictly
below 1. -/
theorem support_denominator_is_total_samples (a : AnalysisState) (samples : List Sample)
    (rt : String) (a' : AnalysisState) (t : SupportTable) (row : SupportRow)
    (hrun : calculatePeakSupport a samples rt = Except.ok a')
    (ht : a'.support = some t) (hrow : row ∈ t.rows)
    (hstrict : samples.length < a.samples.length) :
    row.support ≤ (samples.length : ℚ) / (a.samples.length : ℚ) ∧ row.support < 1 := by
  obtain ⟨sites, ps, hs, hl, hnames, hrows⟩ :=
    calculatePeakSupport_inv a samples rt a' t hrun ht
  rw [hrows] at hrow
  simp only [List.mem_map] at hrow
  obtain ⟨region, hreg, hrow⟩ := hrow
  subst hrow
  exact ⟨supportValue_le_ratio _ _ _ _, supportValue_lt_one _ _ _ _ hstrict⟩

def c10State : AnalysisState :=
  { name := "an", resultsDir := "res", samples := [c3wA, c3wB],
    sites := some [⟨"chr1", 100, 200⟩] }

def c10Row : SupportRow :=
  { region := ⟨"chr1", 100, 200⟩, counts := [1],
    support := supportValue ⟨"chr1", 100, 200⟩ [1] 1 2 }

def c10Table : SupportTable := { sampleNames := ["wa"], rows := [c10Row] }

/-- An analysis of two samples whose consensus region sits on a chromosome
the first sample's peaks never touch. -/
def c10xState : AnalysisState :=
  { name := "an", resultsDir := "res", samples := [c3wA, c3wB],
    sites := some [⟨"chr5", 10, 20⟩] }

/-- Counterexample to C10 as stated: passing one of the analysis's two
samples over a region that sample does not overlap at all, the claimed value
— the clamped per-sample indicator sum over the passed samples divided by
`len(self.samples)` = 2 — is 0/2 = 0, but the code's positional selection
takes the `chrom` cell (which clamps to 1), giving support 1/2: the support
value is not computed from the passed samples' indicator columns. -/
theorem support_not_indicator_sum :
    ((calculatePeakSupport c10xState [c3wA] "peaks").toOption.bind AnalysisState.support
      = some { sampleNames := ["wa"],
               rows := [{ region := ⟨"chr5", 10, 20⟩, counts := [0],
                          support := supportValue ⟨"chr5", 10, 20⟩ [0] 1 2 }] })
    ∧ supportValue ⟨"chr5", 10, 20⟩ [0] 1 2 ≠ (clampedSum [0] : ℚ) / (2 : ℚ) :=
  ⟨rfl, by norm_num [supportValue, supportSelection, clampedSum, clampOne]⟩

/-- Witness for C10: passing one of the analysis's two samples, the single
region's support is at most passed/total = 1/2 and strictly below 1. -/
theorem support_denominator_is_total_samples_witness :
    c10Row.support ≤ (([c3wA].length : ℚ)) / ((c10State.samples.length : ℚ))
      ∧ c10Row.support < 1 := by
  have hrun : calculatePeakSupport c10State [c3wA] "peaks"
      = Except.ok { c10State with support := some c10Table } := by rfl
  exact support_denominator_is_total_samples c10State [c3wA] "peaks" _ c10Table c10Row
    hrun rfl (by simp [c10Table]) (by decide)

/-! ## Helper lemmas for the supported-peaks mask -/

lemma forall2_map_self {α β : Type} (g : α → β) (P : β → α → Prop) (l : List α)
    (h : ∀ x ∈ l, P (g x) x) : List.Forall₂ P (l.map g) l := by
  induction l with
  | nil => exact List.Forall₂.nil
  | cons a as ih =>
    exact List.Forall₂.cons (h a (by simp)) (ih (fun x hx => h x (by simp [hx])))

lemma map_congr_mem {α β : Type} (l : List α) (f g : α → β)
    (h : ∀ x ∈ l, f x = g x) : l.map f = l.map g := by
  induction l with
  | nil => rfl
  | cons a as ih =>
    simp only [List.map_cons]
    rw [h a (by simp), ih (fun x hx => h x (by simp [hx]))]

lemma natSum_eq_zero_iff (l : List Nat) : l.sum = 0 ↔ ∀ x ∈ l, x = 0 := by
  induction l with
  | nil => simp
  | cons a as ih =>
    simp only [List.sum_cons, List.mem_cons, Nat.add_eq_zero]
    constructor
    · rintro ⟨h1, h2⟩ x hx
      cases hx with
      | inl h => rw [h]; exact h1
      | inr h => exact (ih.mp h2) x h
    · intro h
      exact ⟨h a (Or.inl rfl), ih.mpr (fun x hx => h x (Or.inr hx))⟩

/-- Looking a sample's column up by name in a per-sample list (first matching
index) returns that sample's own entry, provided the names are distinct. -/
lemma idxOfName_lookup {α : Type} (g : Sample → α) (d : α) (samples : List Sample)
    (s : Sample) (hnd : (samples.map Sample.name).Nodup) (hs : s ∈ samples) :
    ((idxOfName s.name (samples.map Sample.name)).map
      (fun i => (samples.map g).getD i d)).getD d = g s := by
  induction samples with
  | nil => cases hs
  | cons a rest ih =>
    simp only [List.map_cons]
    by_cases hname : (a.name == s.name) = true
    · have hidx : idxOfName s.name (a.name :: rest.map Sample.name) = some 0 := by
        unfold idxOfName; rw [if_pos hname]
      rw [hidx]
      have haname : a.name = s.name := by simpa using hname
      cases List.mem_cons.mp hs with
      | inl h => rw [h]; rfl
      | inr h =>
        exfalso
        have hmem : s.name ∈ rest.map Sample.name := List.mem_map_of_mem Sample.name h
        rw [← haname] at hmem
        rw [List.map_cons] at hnd
        exact (List.nodup_cons.mp hnd).1 hmem
    · have hidx : idxOfName s.name (a.name :: rest.map Sample.name)
          = (idxOfName s.name (rest.map Sample.name)).map (fun i => i + 1) := by
        simp only [idxOfName]; rw [if_neg hname]
      rw [hidx]
      have hs' : s ∈ rest := by
        rcases List.mem_cons.mp hs with h | h
        · exfalso; apply hname; rw [h]; simp
        · exact h
      have hnd' : (rest.map Sample.name).Nodup := by
        rw [List.map_cons] at hnd
        exact (List.nodup_cons.mp hnd).2
      have ihr := ih hnd' hs'
      cases hrec : idxOfName s.name (rest.map Sample.name) with
      | none => rw [hrec] at ihr; simpa using ihr
      | some i =>
        rw [hrec] at ihr
        simpa using ihr

lemma forall_mem_map_nat {α : Type} (l : List α) (f : α → Nat) :
    (∀ x ∈ l.map f, x = 0) ↔ ∀ s ∈ l, f s = 0 := by
  constructor
  · intro h s hs
    exact h (f s) (List.mem_map_of_mem f hs)
  · intro h x hx
    obtain ⟨s, hs, rfl⟩ := List.mem_map.mp hx
    exact h s hs

lemma natSum_map_ne_zero_iff {α : Type} (l : List α) (f : α → Nat) :
    (l.map f).sum ≠ 0 ↔ ∃ s ∈ l, f s ≠ 0 := by
  rw [Ne, natSum_eq_zero_iff, forall_mem_map_nat]
  push_neg
  exact Iff.rfl

/-- C9: `get_supported_peaks` over a support table built by
`calculate_peak_support` returns, for a subset of the passed samples with
distinct names, a boolean mask that is true on a region exactly when the sum
of the subset's raw (unclamped) per-sample indicator columns is nonzero, i.e.
exactly when at least one subset sample's own interval set overlaps the
region — computed from the indicator columns, not from the aggregated
`support` column. -/
theorem supported_peaks_mask (a : AnalysisState) (samples sub : List Sample) (rt : String)
    (a' : AnalysisState) (t : SupportTable)
    (hrun : calculatePeakSupport a samples rt = Except.ok a')
    (ht : a'.support = some t)
    (hnd : (samples.map Sample.name).Nodup)
    (hsub : ∀ s ∈ sub, s ∈ samples) :
    List.Forall₂ (fun (b : Bool) (row : SupportRow) =>
        ((b = true) ↔ ∃ s ∈ sub, overlapCount (loadedPeaks rt s) row.region ≠ 0))
      (getSupportedPeaks t sub) t.rows := by
  obtain ⟨sites, ps, hs, hl, hnames, hrows⟩ :=
    calculatePeakSupport_inv a samples rt a' t hrun ht
  have hmap := loadAllPeaks_eq_map rt samples ps hl
  subst hmap
  unfold getSupportedPeaks
  apply forall2_map_self
  intro row hrowmem
  rw [hrows] at hrowmem
  simp only [List.mem_map] at hrowmem
  obtain ⟨region, hreg, hrow⟩ := hrowmem
  have hregion : row.region = region := by rw [← hrow]
  have hcounts : row.counts
      = (samples.map (loadedPeaks rt)).map (fun p => overlapCount p region) := by
    rw [← hrow]
  have hpt : ∀ s ∈ sub, lookupCount t row s.name
      = overlapCount (loadedPeaks rt s) row.region := by
    intro s hsm
    unfold lookupCount
    rw [hnames, hcounts, hregion, List.map_map]
    exact idxOfName_lookup ((fun p => overlapCount p region) ∘ loadedPeaks rt) 0
      samples s hnd (hsub s hsm)
  simp only [bne_iff_ne]
  rw [natSum_map_ne_zero_iff]
  constructor
  · rintro ⟨s, hsm, hne⟩
    refine ⟨s, hsm, ?_⟩
    rw [← hpt s hsm]
    exact hne
  · rintro ⟨s, hsm, hne⟩
    refine ⟨s, hsm, ?_⟩
    rw [hpt s hsm]
    exact hne

/-- Witness for C9: a concrete two-sample run; the mask for the subset holding
only the second sample is true on the single region exactly because that
sample's own peak overlaps it. -/
theorem supported_peaks_mask_witness :
    List.Forall₂ (fun (b : Bool) (row : SupportRow) =>
        ((b = true) ↔ ∃ s ∈ [c3wB], overlapCount (loadedPeaks "peaks" s) row.region ≠ 0))
      (getSupportedPeaks c3wTable [c3wB]) c3wTable.rows := by
  have hrun : calculatePeakSupport c3wState [c3wA, c3wB] "peaks"
      = Except.ok { c3wState with support := some c3wTable } := by rfl
  exact supported_peaks_mask c3wState [c3wA, c3wB] [c3wB] "peaks" _ c3wTable hrun rfl
    (by decide) (by decide)

/-- A successful `assertJoined` pins the stored annotated matrix and its row
count. -/
lemma assertJoined_ok (a : AnalysisState) (cov : CMatrix) (cols : List String)
    (joined : List ARow) (a' : AnalysisState)
    (h : assertJoined a cov cols joined = Except.ok a') :
    a'.coverageAnnotated = some { columns := cols, rows := joined }
      ∧ joined.length = cov.rows.length := by
  unfold assertJoined at h
  by_cases hlen : (cov.rows.length == joined.length) = true
  · rw [if_pos hlen] at h
    simp only [Except.ok.injEq] at h
    subst h
    have hlen' : cov.rows.length = joined.length := by simpa using hlen
    exact ⟨rfl, hlen'.symm⟩
  · rw [if_neg hlen] at h
    exact absurd h (by simp)

/-- C4: every successful run of `annotate` yields an annotated matrix whose
row count equals the canonical coverage matrix's row count; a run in which the
chain of left joins changed the row count ends in the `AssertionError` of
line 429 instead of returning. -/
theorem annotate_preserves_row_count (a : AnalysisState) (samples : List Sample)
    (quantArg : Option CMatrix) (a' : AnalysisState)
    (hrun : annotate a samples quantArg = Except.ok a') :
    ∃ cov am, a.coverage = some cov ∧ a'.coverageAnnotated = some am ∧
      am.rows.length = cov.rows.length := by
  unfold annotate at hrun
  cases h1 : pickQuantMatrix a quantArg with
  | error e => rw [h1] at hrun; exact absurd hrun (by simp)
  | ok qm =>
  rw [h1] at hrun
  cases h2 : a.geneAnn with
  | none => rw [h2] at hrun; exact absurd hrun (by simp)
  | some ga =>
  rw [h2] at hrun
  cases h3 : a.regionAnn with
  | none => rw [h3] at hrun; exact absurd hrun (by simp)
  | some ra =>
  rw [h3] at hrun
  cases h4 : a.chromStateAnn with
  | none => rw [h4] at hrun; exact absurd hrun (by simp)
  | some ca =>
  rw [h4] at hrun
  cases h5 : a.support with
  | none => rw [h5] at hrun; exact absurd hrun (by simp)
  | some sup =>
  rw [h5] at hrun
  cases h6 : a.coverage with
  | none => rw [h6] at hrun; exact absurd hrun (by simp)
  | some cov =>
  rw [h6] at hrun
  obtain ⟨hann, hlen⟩ := assertJoined_ok _ _ _ _ _ hrun
  exact ⟨cov, _, rfl, hann, hlen⟩

def c4Cov : CMatrix :=
  { columns := ["wa"],
    rows := [{ key := "chr1:100-200", chrom := "chr1", start := 100, stop := 200,
               values := [4] }] }

def c4Ann : List AnnRow := [{ chrom := "chr1", start := 100, stop := 200, value := "G1" }]

def c4Sup : SupportTable :=
  { sampleNames := ["wa"],
    rows := [{ region := ⟨"chr1", 100, 200⟩, counts := [1], support := 1 }] }

def c4State : AnalysisState :=
  { name := "an", resultsDir := "res", samples := [c3wA],
    coverage := some c4Cov, coverageGc := some c4Cov,
    geneAnn := some c4Ann, regionAnn := some c4Ann, chromStateAnn := some c4Ann,
    support := some c4Sup }

/-- Witness for C4: a concrete successful `annotate` run whose annotated
matrix has exactly the coverage matrix's row count. -/
theorem annotate_preserves_row_count_witness :
    ∃ a', annotate c4State [c3wA] Option.none = Except.ok a' ∧
      ∃ cov am, c4State.coverage = some cov ∧ a'.coverageAnnotated = some am ∧
        am.rows.length = cov.rows.length := by
  obtain ⟨a', h⟩ : ∃ x, annotate c4State [c3wA] Option.none = Except.ok x := ⟨_, rfl⟩
  exact ⟨a', h, annotate_preserves_row_count c4State [c3wA] Option.none a' h⟩
